import Mathlib

/-!
Verification of the TexasProof core subsystem (receipt ledger, stop rules,
genesis pattern spawning, scenario harness) against its specification.

The Python sources are shallowly embedded: Python floats become rationals,
machine-independent integers become Nat and Int, dictionaries become
association lists or structures holding the fields the code reads, and
fallible code returns Option or Except.  Wall-clock values (timestamps)
and the ISO-8601 parser are passed in as explicit parameters, so theorems
quantify over them.  SHA-256 is implemented concretely (FIPS 180-4) so
hash values are computable; the second digest of dual_hash is embedded in
its HAS_BLAKE3 = False form, where it falls back to a prefixed SHA-256
(src/core.py lines 134-138).  With blake3 installed only the text after
the colon of a dual hash changes; equality results below do not depend on
that component at all.
-/

set_option maxRecDepth 100000

namespace TexasProof

/-! ## SHA-256 (concrete model of hashlib.sha256, FIPS 180-4)

Words are Nat reduced mod 2^32.  Checked against the standard test
vectors: sha256hex of an empty string, of "abc" and of "empty" reproduce
the hashlib digests.
-/

def w32 : Nat := 4294967296

def rotr (n x : Nat) : Nat :=
  (x % 2 ^ n) * 2 ^ (32 - n) + x / 2 ^ n

def shr (n x : Nat) : Nat := x / 2 ^ n

def bnot32 (x : Nat) : Nat := Nat.xor x (w32 - 1)

def bigSigma0 (x : Nat) : Nat := Nat.xor (rotr 2 x) (Nat.xor (rotr 13 x) (rotr 22 x))

def bigSigma1 (x : Nat) : Nat := Nat.xor (rotr 6 x) (Nat.xor (rotr 11 x) (rotr 25 x))

def smallSigma0 (x : Nat) : Nat := Nat.xor (rotr 7 x) (Nat.xor (rotr 18 x) (shr 3 x))

def smallSigma1 (x : Nat) : Nat := Nat.xor (rotr 17 x) (Nat.xor (rotr 19 x) (shr 10 x))

def chF (e f g : Nat) : Nat := Nat.xor (Nat.land e f) (Nat.land (bnot32 e) g)

def majF (a b c : Nat) : Nat := Nat.xor (Nat.land a b) (Nat.xor (Nat.land a c) (Nat.land b c))

def shaK : List Nat :=
  [1116352408, 1899447441, 3049323471, 3921009573, 961987163,
   1508970993, 2453635748, 2870763221, 3624381080, 310598401,
   607225278, 1426881987, 1925078388, 2162078206, 2614888103,
   3248222580, 3835390401, 4022224774, 264347078, 604807628,
   770255983, 1249150122, 1555081692, 1996064986, 2554220882,
   2821834349, 2952996808, 3210313671, 3336571891, 3584528711,
   113926993, 338241895, 666307205, 773529912, 1294757372,
   1396182291, 1695183700, 1986661051, 2177026350, 2456956037,
   2730485921, 2820302411, 3259730800, 3345764771, 3516065817,
   3600352804, 4094571909, 275423344, 430227734, 506948616,
   659060556, 883997877, 958139571, 1322822218, 1537002063,
   1747873779, 1955562222, 2024104815, 2227730452, 2361852424,
   2428436474, 2756734187, 3204031479, 3329325298]

def shaH0 : List Nat :=
  [1779033703, 3144134277, 1013904242, 2773480762,
   1359893119, 2600822924, 528734635, 1541459225]

/-- Pad a byte message per FIPS 180-4: append 0x80, zeros, then the 8-byte
big-endian bit length, reaching a multiple of 64 bytes. -/
def padMsg (msg : List Nat) : List Nat :=
  let len := msg.length
  let zeros := (119 - (len % 64) % 64 + 64) % 64
  let bitLen := len * 8
  msg ++ [0x80] ++ List.replicate zeros 0 ++
    [bitLen / 2 ^ 56 % 256, bitLen / 2 ^ 48 % 256, bitLen / 2 ^ 40 % 256, bitLen / 2 ^ 32 % 256,
     bitLen / 2 ^ 24 % 256, bitLen / 2 ^ 16 % 256, bitLen / 2 ^ 8 % 256, bitLen % 256]

/-- Group bytes big-endian into 32-bit words. -/
def toWords : List Nat → List Nat
  | b0 :: b1 :: b2 :: b3 :: rest => (((b0 * 256 + b1) * 256 + b2) * 256 + b3) :: toWords rest
  | _ => []

/-- Extend the 16 block words to the 64 schedule words. -/
def extendSchedule (ws : List Nat) : List Nat :=
  (List.range 48).foldl
    (fun acc _ =>
      let n := acc.length
      let nw := (smallSigma1 (acc.getD (n - 2) 0) + acc.getD (n - 7) 0 +
                 smallSigma0 (acc.getD (n - 15) 0) + acc.getD (n - 16) 0) % w32
      acc ++ [nw])
    ws

/-- The eight working registers of the SHA-256 compression loop. -/
structure Regs where
  a : Nat
  b : Nat
  c : Nat
  d : Nat
  e : Nat
  f : Nat
  g : Nat
  h : Nat
deriving DecidableEq

def roundStep (r : Regs) (kw : Nat × Nat) : Regs :=
  let t1 := (r.h + bigSigma1 r.e + chF r.e r.f r.g + kw.1 + kw.2) % w32
  let t2 := (bigSigma0 r.a + majF r.a r.b r.c) % w32
  ⟨(t1 + t2) % w32, r.a, r.b, r.c, (r.d + t1) % w32, r.e, r.f, r.g⟩

def compress (h : List Nat) (block : List Nat) : List Nat :=
  let ws := extendSchedule (toWords block)
  let init : Regs := ⟨h.getD 0 0, h.getD 1 0, h.getD 2 0, h.getD 3 0,
                      h.getD 4 0, h.getD 5 0, h.getD 6 0, h.getD 7 0⟩
  let r := (shaK.zip ws).foldl roundStep init
  [(h.getD 0 0 + r.a) % w32, (h.getD 1 0 + r.b) % w32, (h.getD 2 0 + r.c) % w32,
   (h.getD 3 0 + r.d) % w32, (h.getD 4 0 + r.e) % w32, (h.getD 5 0 + r.f) % w32,
   (h.getD 6 0 + r.g) % w32, (h.getD 7 0 + r.h) % w32]

/-- Fold the compression function over the 64-byte blocks of the padded
message.  The fuel argument (number of remaining blocks) makes the
recursion structural so the kernel can evaluate it. -/
def processBlocks : Nat → List Nat → List Nat → List Nat
  | 0, h, _ => h
  | _, h, [] => h
  | fuel + 1, h, b :: bs =>
    processBlocks fuel (compress h (List.take 64 (b :: bs))) (List.drop 63 bs)

def hexDigit (n : Nat) : Char := if n < 10 then Char.ofNat (48 + n) else Char.ofNat (87 + n)

def wordHex (w : Nat) : List Char :=
  [hexDigit (w / 2 ^ 28 % 16), hexDigit (w / 2 ^ 24 % 16), hexDigit (w / 2 ^ 20 % 16),
   hexDigit (w / 2 ^ 16 % 16), hexDigit (w / 2 ^ 12 % 16), hexDigit (w / 2 ^ 8 % 16),
   hexDigit (w / 2 ^ 4 % 16), hexDigit (w % 16)]

/-- UTF-8 bytes of one character; models the str.encode call in dual_hash. -/
def utf8Char (c : Char) : List Nat :=
  let n := c.toNat
  if n < 128 then [n]
  else if n < 2048 then [192 + n / 64, 128 + n % 64]
  else if n < 65536 then [224 + n / 4096, 128 + n / 64 % 64, 128 + n % 64]
  else [240 + n / 262144, 128 + n / 4096 % 64, 128 + n / 64 % 64, 128 + n % 64]

def strBytes (s : String) : List Nat := (s.data.map utf8Char).flatten

def sha256hexBytes (msg : List Nat) : String :=
  let padded := padMsg msg
  ⟨((processBlocks (padded.length / 64) shaH0 padded).map wordHex).flatten⟩

/-- Hex digest of the SHA-256 of the UTF-8 bytes of a string; models
hashlib.sha256(data).hexdigest() in src/core.py. -/
def sha256hex (s : String) : String := sha256hexBytes (strBytes s)

/-! ## core.py: dual_hash and merkle -/

def TENANT_ID : String := "texasproof"

def GENESIS_AUTOCATALYSIS_THRESHOLD : Nat := 5

def MAX_CONSECUTIVE_FAILURES : Nat := 2

def SCENARIO_NAMES : List String :=
  ["baseline", "stress", "genesis", "colony_ridge", "fund_diversion", "godel"]

/-- Embeds the HAS_BLAKE3 = False fallback branch of dual_hash: a second
SHA-256 digest over the prefixed input (src/core.py lines 137-138). -/
def blake3Fallback (data : String) : String := sha256hex ("blake3_fallback:" ++ data)

/-- Embeds core.dual_hash: string input is UTF-8 encoded, hashed with two
digests, and the two hex digests are joined with a colon.  Byte inputs in
the source (only b"empty" from merkle) coincide with the UTF-8 bytes of
the corresponding string. -/
def dual_hash (data : String) : String := sha256hex data ++ ":" ++ blake3Fallback data

/-- Items passed to merkle.  The source hashes
json.dumps(item, sort_keys=True) for dict items and str(item) for
anything else; the constructors cover the item shapes the repository
feeds to merkle (strings, numbers, flat string-valued dicts). -/
inductive Item where
  | str (s : String)
  | num (n : Int)
  | dict (fields : List (String × String))
deriving DecidableEq

/-- JSON string literal with the two escapes that can occur for plain text. -/
def jsonStr (s : String) : String :=
  "\"" ++ (s.data.map (fun c =>
    if c = '"' then "\\\"" else if c = '\\' then "\\\\" else String.singleton c)).foldl
    (fun acc t => acc ++ t) "" ++ "\""

/-- Canonical serialization of a flat dict as json.dumps produces it with
sort_keys=True: keys sorted, entries joined by comma-space, key and value
separated by colon-space. -/
def jsonOfPairs (fs : List (String × String)) : String :=
  let sorted := fs.mergeSort (fun a b => decide (a.1 ≤ b.1))
  "\x7b" ++ String.intercalate ", " (sorted.map (fun p => jsonStr p.1 ++ ": " ++ jsonStr p.2)) ++ "\x7d"

/-- The per-item serialization of merkle: canonical JSON for dict items,
Python str() for scalars (str() of a string is the string itself). -/
def serializeItem : Item → String
  | .str s => s
  | .num n => toString n
  | .dict fs => jsonOfPairs fs

/-- One pairing pass of the merkle while loop body: hash adjacent pairs. -/
def pairHash : List String → List String
  | a :: b :: rest => dual_hash (a ++ b) :: pairHash rest
  | _ => []

/-- Duplicate the last element when the level has odd length. -/
def padOdd (hs : List String) : List String :=
  if hs.length % 2 = 1 then hs ++ [hs.getLastD ""] else hs

/-- The merkle while loop: repeatedly pad odd levels and pair-hash until a
single hash remains.  Fuel bounds the iteration count; each pass at least
halves a level of length two or more, so fuel equal to the initial length
always suffices. -/
def buildTree : Nat → List String → String
  | _, [h] => h
  | 0, hs => hs.headD ""
  | fuel + 1, hs => buildTree fuel (pairHash (padOdd hs))

/-- Embeds core.merkle: the empty list maps to the dual hash of the fixed
sentinel b"empty"; otherwise each item is serialized and hashed and the
levels are folded up to a single root. -/
def merkle (items : List Item) : String :=
  match items with
  | [] => dual_hash "empty"
  | _ =>
    let hashes := items.map (fun it => dual_hash (serializeItem it))
    buildTree hashes.length hashes

/-! ## core.py: stop rules -/

/-- Renders a rational the way a Python percent format with two decimals
renders the corresponding value (float rounding artifacts aside); used
only to build exception and violation messages, which no claim inspects
numerically. -/
def fmtPercent2 (q : ℚ) : String :=
  let c : ℤ := round (q * 10000)
  let a := c.natAbs
  (if c < 0 then "-" else "") ++ toString (a / 100) ++ "." ++
    (if a % 100 < 10 then "0" else "") ++ toString (a % 100) ++ "%"

/-- Embeds core.StopRuleException: message, metric and action fields. -/
structure StopRuleException where
  message : String
  metric : String
  action : String
deriving DecidableEq

/-- The payload of the anomaly receipt a stop rule emits before raising. -/
structure AnomalyPayload where
  metric : String
  baseline : ℚ
  delta : ℚ
  classification : String
  action : String
deriving DecidableEq

/-- Result of running a stop-rule guard: the anomaly receipts emitted (in
order, all before any raise) and either normal return or the raised
exception. -/
structure StopRuleOutcome where
  emitted : List AnomalyPayload
  result : Except StopRuleException Unit

/-- Embeds core.stoprule_detection_rate (default threshold 0.70 at the
call-free Python signature; both arguments are explicit here). -/
def stoprule_detection_rate (rate threshold : ℚ) : StopRuleOutcome :=
  if rate < threshold then
    { emitted := [⟨"detection_rate", threshold, rate - threshold, "degradation", "halt"⟩],
      result := .error
        ⟨"Detection rate " ++ fmtPercent2 rate ++ " below threshold " ++ fmtPercent2 threshold,
         "detection_rate", "halt"⟩ }
  else { emitted := [], result := .ok () }

/-! ## core.py: emit_receipt over Python dictionaries

A Python dict is modeled as an association list with unique keys in
insertion order; dictSet is dict assignment (replace in place, else
append) and buildDict is a dict literal built left to right, so a later
duplicate key overrides the value of an earlier one, as the
star-star-data splat in emit_receipt does.
-/

/-- Values stored in receipt payload dicts. -/
inductive PyVal where
  | vstr (s : String)
  | vnum (q : ℚ)
  | vbool (b : Bool)
deriving DecidableEq

abbrev PyDict := List (String × PyVal)

/-- Python dict lookup: the unique binding of the key, if present. -/
def dictGet : PyDict → String → Option PyVal
  | [], _ => none
  | p :: rest, k => if p.1 = k then some p.2 else dictGet rest k

/-- Python dict assignment: overwrite in place when the key exists, else
append the new binding. -/
def dictSet (d : PyDict) (k : String) (v : PyVal) : PyDict :=
  if (dictGet d k).isSome then d.map (fun p => if p.1 = k then (k, v) else p)
  else d ++ [(k, v)]

/-- A dict literal built from a pair sequence left to right. -/
def buildDict (pairs : PyDict) : PyDict :=
  pairs.foldl (fun d p => dictSet d p.1 p.2) []

/-- JSON rendering of one payload value (numeric rendering approximates
the json module float repr; no claim depends on it). -/
def pyValJson : PyVal → String
  | .vstr s => jsonStr s
  | .vnum q => toString q
  | .vbool b => if b then "true" else "false"

/-- Embeds json.dumps(data, sort_keys=True) over a flat payload dict. -/
def jsonOfPyDict (d : PyDict) : String :=
  let sorted := d.mergeSort (fun a b => decide (a.1 ≤ b.1))
  "\x7b" ++ String.intercalate ", " (sorted.map (fun p => jsonStr p.1 ++ ": " ++ pyValJson p.2)) ++ "\x7d"

/-- Embeds core.emit_receipt.  The wall-clock timestamp is a parameter.
Returns the payload dict after the tenant_id insertion (the source
mutates the caller's dict in place) together with the assembled receipt;
printing the receipt to stdout is a side effect outside the embedding. -/
def emit_receipt (receipt_type : String) (ts : String) (data : PyDict) : PyDict × PyDict :=
  let data1 := if (dictGet data "tenant_id").isSome then data
               else data ++ [("tenant_id", .vstr TENANT_ID)]
  let payload_hash := dual_hash (jsonOfPyDict data1)
  let receipt := buildDict
    ([("receipt_type", .vstr receipt_type), ("ts", .vstr ts),
      ("tenant_id", (dictGet data1 "tenant_id").getD (.vstr TENANT_ID)),
      ("payload_hash", .vstr payload_hash)] ++ data1)
  (data1, receipt)

/-! ## genesis.py: wound harvesting and watcher synthesis

Receipts are embedded as records holding the fields genesis.py reads via
dict get, each optional (absent key = none).  The wall clock and the
ISO-8601 timestamp parser are explicit parameters: parseTs models
datetime.fromisoformat on the Z-stripped text, returning none where the
source raises ValueError or TypeError, and time is measured in days so
that the 30-day cutoff is now minus 30.
-/

/-- Substring test on character lists: needle starts at the current
position. -/
def listLeads : List Char → List Char → Bool
  | [], _ => true
  | _ :: _, [] => false
  | a :: as, b :: bs => a == b && listLeads as bs

/-- Substring test on character lists: needle occurs somewhere. -/
def hasSubList (needle : List Char) : List Char → Bool
  | [] => needle.isEmpty
  | c :: tl => listLeads needle (c :: tl) || hasSubList needle tl

/-- Embeds the Python membership test pat in s on strings. -/
def strContains (s pat : String) : Bool := hasSubList pat.data s.data

/-- A receipt as genesis.py reads it. -/
structure Receipt where
  receipt_type : Option String
  wound_type : Option String
  ts : Option String
  amount_usd : Option ℚ
  fraud_probability : Option ℚ
deriving DecidableEq

/-- The wound test of harvest_wounds: the receipt type contains wound,
anomaly or violation. -/
def isWoundType (rt : String) : Bool :=
  strContains rt "wound" || strContains rt "anomaly" || strContains rt "violation"

/-- Embeds genesis.harvest_wounds: keep receipts of a wound type whose
timestamp parses into the lookback window, and conservatively keep those
whose timestamp fails to parse. -/
def harvest_wounds (parseTs : String → Option ℤ) (now : ℤ) (receipts : List Receipt)
    (days : ℤ) : List Receipt :=
  let cutoff := now - days
  receipts.foldl (fun wounds r =>
    if isWoundType (r.receipt_type.getD "") then
      match parseTs ((r.ts.getD "").replace "Z" "") with
      | some t => if t ≥ cutoff then wounds ++ [r] else wounds
      | none => wounds ++ [r]
    else wounds) []

/-- The grouping key of identify_patterns: wound_type, else receipt_type,
else "unknown". -/
def woundTypeKey (w : Receipt) : String := w.wound_type.getD (w.receipt_type.getD "unknown")

/-- Grouping keys in first-occurrence order, as a Python defaultdict
iterates them. -/
def groupKeys (ws : List Receipt) : List String :=
  ws.foldl (fun ks w => if ks.contains (woundTypeKey w) then ks else ks ++ [woundTypeKey w]) []

/-- Python truthiness filter used on the amount and probability lists:
keep present, non-zero values. -/
def truthyVals (l : List (Option ℚ)) : List ℚ :=
  l.filterMap (fun o => match o with
    | some q => if q = 0 then none else some q
    | none => none)

/-- Mean of a list, zero when empty, as the sum-over-length guard computes. -/
def avgOr0 (l : List ℚ) : ℚ := if l = [] then 0 else l.sum / l.length

/-- Python min over a string list (first element wins ties). -/
def listMinStr (l : List String) : String :=
  match l with
  | [] => ""
  | a :: rest => rest.foldl (fun acc x => if x < acc then x else acc) a

/-- Python max over a string list (first element wins ties). -/
def listMaxStr (l : List String) : String :=
  match l with
  | [] => ""
  | a :: rest => rest.foldl (fun acc x => if acc < x then x else acc) a

/-- A WoundPattern as identify_patterns builds it.  The random pattern_id
(a fresh uuid suffix) is omitted: it is nondeterministic and no
downstream code reads it. -/
structure WoundPattern where
  wound_type : String
  occurrence_count : Nat
  first_occurrence : String
  last_occurrence : String
  avg_amount_usd : ℚ
  avg_fraud_probability : ℚ
  sample_wounds : List Receipt
  is_recurring : Bool
  exceeds_threshold : Bool
deriving DecidableEq

/-- Embeds genesis.identify_patterns: group wounds by type key and keep
groups reaching the autocatalysis threshold, with aggregate statistics. -/
def identify_patterns (wounds : List Receipt) : List WoundPattern :=
  (groupKeys wounds).filterMap (fun wt =>
    let group := wounds.filter (fun w => woundTypeKey w == wt)
    if GENESIS_AUTOCATALYSIS_THRESHOLD ≤ group.length then
      some { wound_type := wt,
             occurrence_count := group.length,
             first_occurrence := listMinStr (group.map (fun w => w.ts.getD "")),
             last_occurrence := listMaxStr (group.map (fun w => w.ts.getD "")),
             avg_amount_usd := avgOr0 (truthyVals (group.map (fun w => w.amount_usd))),
             avg_fraud_probability := avgOr0 (truthyVals (group.map (fun w => w.fraud_probability))),
             sample_wounds := group.take 5,
             is_recurring := true,
             exceeds_threshold := GENESIS_AUTOCATALYSIS_THRESHOLD ≤ group.length }
    else none)

/-- The trigger closure of synthesize_blueprint represented as data: the
captured wound type and minimum probability. -/
structure TriggerCond where
  wt : String
  min_prob : ℚ
deriving DecidableEq

/-- Evaluates a synthesized trigger on a receipt, as the make_trigger
closure does. -/
def evalTrigger (t : TriggerCond) (r : Receipt) : Bool :=
  let rt := r.receipt_type.getD ""
  (strContains rt t.wt || rt == t.wt) && decide (t.min_prob ≤ r.fraud_probability.getD 0)

/-- A watcher blueprint as synthesize_blueprint builds it.  The random id
(uuid suffix) and the synthesized_at wall-clock stamp are omitted as
nondeterministic fields no claim or downstream read depends on. -/
structure Blueprint where
  pattern_name : String
  wound_type : String
  trigger_condition : TriggerCond
  occurrence_threshold : Nat
  probability_threshold : ℚ
  status : String
  source_pattern : WoundPattern
deriving DecidableEq

/-- Embeds genesis.synthesize_blueprint: derive the probability floor and
build the blueprint (the genesis_blueprint receipt emission is a stdout
side effect outside the embedding). -/
def synthesize_blueprint (pattern : WoundPattern) : Blueprint :=
  let wound_type := pattern.wound_type
  let min_probability := max (1 / 2 : ℚ) (pattern.avg_fraud_probability - 1 / 10)
  { pattern_name := "genesis_" ++ wound_type,
    wound_type := wound_type,
    trigger_condition := ⟨wound_type, min_probability⟩,
    occurrence_threshold := pattern.occurrence_count,
    probability_threshold := min_probability,
    status := "blueprint",
    source_pattern := pattern }

/-- Result of one genesis cycle, mirroring the results dict of
run_genesis_cycle. -/
structure GenesisResult where
  wounds_harvested : Nat
  patterns_identified : Nat
  watchers_spawned : Nat
  new_watchers : List Blueprint
  patterns : List WoundPattern
deriving DecidableEq

/-- The synthesis loop of run_genesis_cycle: spawn an activated blueprint
for each pattern over the threshold whose derived name is not already
covered. -/
def spawnLoop (existingPatterns : List String) : List WoundPattern → List Blueprint
  | [] => []
  | p :: ps =>
    if p.exceeds_threshold && !(existingPatterns.contains ("genesis_" ++ p.wound_type)) then
      { synthesize_blueprint p with status := "active" } :: spawnLoop existingPatterns ps
    else spawnLoop existingPatterns ps

/-- Embeds genesis.run_genesis_cycle: harvest wounds over a 30-day
window, identify patterns, and synthesize an activated watcher for every
uncovered pattern. -/
def run_genesis_cycle (parseTs : String → Option ℤ) (now : ℤ) (receipts : List Receipt)
    (existing_watchers : List Blueprint) : GenesisResult :=
  let existing_patterns := existing_watchers.map (fun w => w.pattern_name)
  let wounds := harvest_wounds parseTs now receipts 30
  if wounds.isEmpty then
    { wounds_harvested := wounds.length, patterns_identified := 0, watchers_spawned := 0,
      new_watchers := [], patterns := [] }
  else
    let patterns := identify_patterns wounds
    let nw := spawnLoop existing_patterns patterns
    { wounds_harvested := wounds.length, patterns_identified := patterns.length,
      watchers_spawned := nw.length, new_watchers := nw, patterns := patterns }

/-! ## sim.py: configuration, state and constraint validation -/

/-- Embeds sim.SimConfig with its dataclass defaults. -/
structure SimConfig where
  n_cycles : Nat
  n_monte_carlo_runs : Nat
  wound_rate : ℚ
  resource_budget : ℚ
  conservation_tolerance : ℚ
  random_seed : ℤ
deriving DecidableEq

/-- The dataclass default configuration (DEFAULT_CYCLES = 1000,
DEFAULT_MONTE_CARLO_RUNS = 10000, wound_rate 0.1, resource_budget 1.0,
conservation_tolerance 0.1, DEFAULT_SEED = 42). -/
def defaultSimConfig : SimConfig :=
  { n_cycles := 1000, n_monte_carlo_runs := 10000, wound_rate := 1 / 10,
    resource_budget := 1, conservation_tolerance := 1 / 10, random_seed := 42 }

/-- Embeds sim.SimState: the fields validate_constraints and the run loop
touch.  Watchers are the blueprint records of the genesis module; ledger
entries are receipts. -/
structure SimState where
  active_watchers : List Blueprint
  wound_history : List Receipt
  receipt_ledger : List Receipt
  entropy_trace : List ℚ
  violations : List String
  cycle : Nat
deriving DecidableEq

/-- Division that refuses a zero divisor, so that a ZeroDivisionError in
the source would surface as none in the embedding. -/
def qdivChecked (a b : ℚ) : Option ℚ := if b = 0 then none else some (a / b)

/-- Embeds sim.validate_constraints.  The entropy-conservation check
divides by the first trace entry (replaced by 1.0 when not strictly
positive); the division is checked, so none models a raised
ZeroDivisionError and some the returned violation list. -/
def validate_constraints (state : SimState) (config : SimConfig) : Option (List String) :=
  let entropyPart : Option (List String) :=
    if 2 ≤ state.entropy_trace.length then
      let e0 := state.entropy_trace.headD 0
      let initial := if 0 < e0 then e0 else 1
      let current := state.entropy_trace.getLastD 0
      (qdivChecked |current - initial| initial).map (fun change =>
        if config.conservation_tolerance < change then
          ["Entropy change " ++ fmtPercent2 change ++ " exceeds tolerance " ++
           fmtPercent2 config.conservation_tolerance]
        else [])
    else some []
  entropyPart.map (fun v =>
    v ++ (if (config.n_cycles : ℚ) * config.wound_rate * 2 < (state.wound_history.length : ℚ) then
            ["Wound accumulation exceeds expected rate"]
          else []))

/-! ## sim.py: the scenario loop of run_simulation

The six scenarios are driven through run_single_scenario, whose behavior
for one named scenario is abstracted as an outcome: either a returned
ScenarioResult (passed flag, metrics, violations) or a raised
StopRuleException carrying a message.  The loop below is the literal
transcription of the for statement over SCENARIO_NAMES in
run_simulation (src/sim.py lines 179-204), with the try block rendered
as a match on the outcome.
-/

/-- What running one named scenario can do: return a result or raise a
stop-rule exception. -/
inductive ScenOutcome where
  | ok (passed : Bool) (metrics : List (String × ℚ)) (violations : List String)
  | stopEx (msg : String)
deriving DecidableEq

/-- One entry of the scenario_results dict: the dict built in the try
branch has no error key (none); the dict built in the except branch
records the exception text and has no metrics. -/
structure ScenEntry where
  passed : Bool
  metrics : List (String × ℚ)
  violations : List String
  error : Option String
deriving DecidableEq

/-- The loop state threaded through the scenario loop: accumulated
results in order, the all_passed flag, the consecutive-failure counter,
the violations list of the simulation state, and whether the loop broke
out early. -/
structure ScenLoopState where
  results : List (String × ScenEntry)
  all_passed : Bool
  consecutive_failures : Nat
  violations : List String
  stopped_early : Bool
deriving DecidableEq

def initScenLoopState : ScenLoopState :=
  { results := [], all_passed := true, consecutive_failures := 0,
    violations := [], stopped_early := false }

/-- The violation string appended when the consecutive-failure stop
fires. -/
def consecutiveFailuresMsg (n : Nat) : String :=
  "Consecutive failures (" ++ toString n ++ ") exceed maximum"

/-- Embeds the scenario for loop of run_simulation.  In the returned-
result branch a failure bumps the counter and, past
MAX_CONSECUTIVE_FAILURES, records a violation and breaks; a pass resets
the counter.  In the exception branch the failure is recorded with the
exception text and the counter is bumped, and the loop moves on without
the break check. -/
def scenLoop (outcomes : String → ScenOutcome) : List String → ScenLoopState → ScenLoopState
  | [], st => st
  | name :: rest, st =>
    match outcomes name with
    | .ok passed metrics viols =>
      let st1 := { st with results := st.results ++ [(name, (⟨passed, metrics, viols, none⟩ : ScenEntry))] }
      if passed then
        scenLoop outcomes rest { st1 with consecutive_failures := 0 }
      else
        let cf := st1.consecutive_failures + 1
        let st2 := { st1 with all_passed := false, consecutive_failures := cf }
        if MAX_CONSECUTIVE_FAILURES < cf then
          { st2 with violations := st2.violations ++ [consecutiveFailuresMsg cf],
                     stopped_early := true }
        else
          scenLoop outcomes rest st2
    | .stopEx msg =>
      scenLoop outcomes rest
        { st with results := st.results ++ [(name, (⟨false, [], [msg], some msg⟩ : ScenEntry))],
                  all_passed := false,
                  consecutive_failures := st.consecutive_failures + 1 }

/-- The scenario phase of run_simulation: the loop over the six scenario
names from the initial loop state. -/
def runScenarioPhase (outcomes : String → ScenOutcome) : ScenLoopState :=
  scenLoop outcomes SCENARIO_NAMES initScenLoopState

/-! ## Scoring functions reached by the godel scenario

The three collaborator functions the godel edge cases call are embedded
from their sources (ols_contractor_proof.py, pac_influence_proof.py,
predatory_lending_proof.py).  They are built from dict reads, arithmetic
and comparisons only, so the embeddings are total functions; the except
branches of scenario_godel are unreachable for them.
-/

/-- A contract as score_contract_fraud reads it. -/
structure Contract where
  name : Option String
  amount_usd : Option ℚ
  contract_type : Option String
  cost_per_unit_usd : Option ℚ
  market_rate_usd : Option ℚ
deriving DecidableEq

/-- Embeds ols_contractor_proof.score_contract_fraud.  The donor network
maps lowercase contractor names to their donation totals (the total_usd
field of the network entry, the only field the function reads). -/
def score_contract_fraud (contract : Contract) (donor_network : List (String × ℚ)) : ℚ :=
  let contract_type := (contract.contract_type.getD "").toLower
  let s1 : ℚ := if strContains contract_type "emergency" then 3 / 10 else 0
  let s2 : ℚ := if strContains contract_type "no-bid" || strContains contract_type "no_bid"
                then 1 / 4 else 0
  let amount := contract.amount_usd.getD 0
  let cost_per_unit := contract.cost_per_unit_usd.getD 0
  let market_rate := contract.market_rate_usd.getD cost_per_unit
  let s3 : ℚ :=
    if 0 < cost_per_unit ∧ 0 < market_rate then
      if market_rate * 3 < cost_per_unit then 1 / 4
      else if market_rate * 2 < cost_per_unit then 3 / 20
      else 0
    else 0
  let contractor_name := (contract.name.getD "").toLower
  let s4 : ℚ :=
    match donor_network.lookup contractor_name with
    | some donation_total =>
      if 100000 < donation_total then 3 / 10
      else if 10000 < donation_total then 3 / 20
      else 0
    | none => 0
  let s5 : ℚ := if 50000000 < amount ∧ strContains contract_type "no-bid" then 1 / 10 else 0
  min 1 (s1 + s2 + s3 + s4 + s5)

/-- A donation as the PAC scoring reads it. -/
structure Donation where
  donor : Option String
  amount : Option ℚ
  pac_name : Option String
deriving DecidableEq

/-- A policy outcome record; the godel paths only ever pass an empty
policy list, so no field is read there. -/
structure Policy where
  outcome : Option String
  beneficiary : Option String
  aligned_donor : Option String
deriving DecidableEq

/-- Embeds pac_influence_proof.score_influence_capture.  The guard
returns zero when either list is empty; the entropy-based body reached
only on two non-empty lists runs on numpy floats, so it is abstracted as
the explicit parameter fullBranch, and every theorem below quantifies
over it. -/
def score_influence_capture (fullBranch : List Donation → List Policy → ℚ)
    (donations : List Donation) (policy_outcomes : List Policy) : ℚ :=
  if donations.isEmpty || policy_outcomes.isEmpty then 0
  else fullBranch donations policy_outcomes

/-- A loan as calculate_foreclosure_rate reads it. -/
structure Loan where
  status : Option String
deriving DecidableEq

/-- Embeds predatory_lending_proof.calculate_foreclosure_rate: the share
of loans whose lowercase status is a foreclosure-like value, zero on an
empty portfolio. -/
def calculate_foreclosure_rate (loans : List Loan) : ℚ :=
  if loans.isEmpty then 0
  else
    (loans.countP (fun loan =>
      ["foreclosed", "foreclosure", "default", "repossessed"].contains
        (loan.status.getD "").toLower) : ℚ) / (loans.length : ℚ)

/-! ## scenarios.py: the godel scenario -/

/-- The claim-relevant metrics of the godel ScenarioResult.  The
edge_cases metric entry (case name, handled flag and a formatted result
text) is carried as the cases field without the float formatting of the
result text. -/
structure GodelMetrics where
  graceful_failures : Nat
  expected_failures : Nat
  uncertainty_receipts : Nat
  cases : List (String × Bool)
deriving DecidableEq

/-- The godel ScenarioResult. -/
structure GodelResult where
  name : String
  passed : Bool
  metrics : GodelMetrics
  violations : List String
deriving DecidableEq

/-- Embeds scenarios.scenario_godel.  The seed argument only seeds the
generator (no draw follows), so the result is seed-independent.  Each of
the four fixed edge cases calls one embedded scoring function; the calls
are total, so each case takes its try branch: it counts as a graceful
failure and appends its uncertainty receipt, exactly as in the source
when no exception is raised. -/
def scenario_godel (fullBranch : List Donation → List Policy → ℚ) (seed : ℤ) : GodelResult :=
  let _ := seed
  -- Edge case 1: zero-dollar contract.  Each case runs inside try/except
  -- in the source; an exception would be none here, a returned score is
  -- some.  The embedded calls are total, so none never arises.
  let zero_contract : Contract :=
    { name := some "Zero Dollar Corp", amount_usd := some 0,
      contract_type := some "emergency", cost_per_unit_usd := some 0, market_rate_usd := none }
  let case1 : Option ℚ := some (score_contract_fraud zero_contract [])
  -- Edge case 2: negative donation, scored against an empty policy list.
  let negative_donation : Donation :=
    { donor := some "Refund Corp", amount := some (-50000), pac_name := some "Test PAC" }
  let case2 : Option ℚ := some (score_influence_capture fullBranch [negative_donation] [])
  -- Edge case 3: self-referential PAC, scored against an empty policy list.
  let self_ref_donation : Donation :=
    { donor := some "Circular PAC", amount := some 100000, pac_name := some "Circular PAC" }
  let case3 : Option ℚ := some (score_influence_capture fullBranch [self_ref_donation] [])
  -- Edge case 4: empty loan list.
  let case4 : Option ℚ := some (calculate_foreclosure_rate [])
  let attempts : List (String × Option ℚ) :=
    [("zero_dollar_contract", case1), ("negative_donation", case2),
     ("self_referential_pac", case3), ("empty_input", case4)]
  let graceful_failures := attempts.countP (fun a => a.2.isSome)
  let uncertainty := (attempts.filter (fun a => a.2.isSome)).map Prod.fst
  let cases := attempts.map (fun a => (a.1, a.2.isSome))
  let passed := graceful_failures == 4 && uncertainty.length == 4
  { name := "godel",
    passed := passed,
    metrics := { graceful_failures := graceful_failures, expected_failures := 4,
                 uncertainty_receipts := uncertainty.length, cases := cases },
    violations := if passed then [] else
      ["Only " ++ toString graceful_failures ++ "/4 edge cases handled gracefully"] }

/-! # Theorems -/

/-! ## C4 and C5: merkle root properties -/

/-- Applying a permutation of positions to a fixed-length item vector,
the form in which C5 speaks of permuting an input list. -/
def applyPerm (n : Nat) (σ : Equiv.Perm (Fin n)) (v : Fin n → Item) : List Item :=
  List.ofFn (fun i => v (σ i))

/-- C4 counterexample: the claim says merkle of every non-empty
one-element list differs from merkle of the empty list, but the item
"empty" serializes to the very sentinel text the empty list hashes, so
the two roots coincide. -/
theorem merkle_singleton_empty_collision : merkle [Item.str "empty"] = merkle [] := rfl

/-- C4 amended: merkle of the empty list is the fixed dual hash of the
sentinel, merkle of a one-element list is the dual hash of the
serialized item (hence the roots coincide exactly when those inputs
collide, as they do for the item "empty"), and for an item whose
serialization differs from the sentinel, concretely "a", the roots
differ. -/
theorem merkle_empty_sentinel_and_singleton :
    merkle [] = dual_hash "empty" ∧
    (∀ x : Item, merkle [x] = dual_hash (serializeItem x)) ∧
    merkle [Item.str "a"] ≠ merkle [] := by
  refine ⟨rfl, fun x => rfl, ?_⟩
  decide

/-- C5 counterexample: the claim says every non-identity permutation
changes the root, but swapping the two equal items of a duplicate list
leaves the list, and so the root, unchanged. -/
theorem merkle_duplicate_swap_same_root :
    Equiv.swap (0 : Fin 2) 1 ≠ Equiv.refl (Fin 2) ∧
    merkle (applyPerm 2 (Equiv.swap 0 1) (fun _ => Item.str "a")) =
      merkle (List.ofFn (fun _ : Fin 2 => Item.str "a")) := by
  constructor
  · intro h
    have h0 : (Equiv.swap (0 : Fin 2) 1) 0 = (Equiv.refl (Fin 2)) 0 := by rw [h]
    simp [Equiv.swap_apply_left] at h0
  · rfl

/-- The two-element vector with the distinct leaves "a" and "b". -/
def abItems : Fin 2 → Item := fun i => if i = 0 then Item.str "a" else Item.str "b"

/-- C5 amended: merkle is order-sensitive where the permuted leaf
sequence actually differs: swapping the two distinct leaves "a" and "b"
changes the root (a permutation that fixes the list, as on duplicate
leaves, necessarily preserves it). -/
theorem merkle_swap_distinct_changes_root :
    merkle (applyPerm 2 (Equiv.swap 0 1) abItems) ≠ merkle (List.ofFn abItems) := by
  have h1 : applyPerm 2 (Equiv.swap 0 1) abItems = [Item.str "b", Item.str "a"] := by decide
  have h2 : List.ofFn abItems = [Item.str "a", Item.str "b"] := by decide
  rw [h1, h2]
  decide

/-! ## C6: the detection-rate stop rule -/

/-- C6: stoprule_detection_rate raises exactly when the rate is below
the threshold; the raised exception carries metric detection_rate and
action halt, and the anomaly receipt with metric, baseline, delta,
classification and action is emitted (before the raise, the emission
list being ordered); on a rate at or above the threshold it returns
normally with nothing emitted. -/
theorem stoprule_detection_rate_spec (rate threshold : ℚ) :
    ((∃ e, (stoprule_detection_rate rate threshold).result = .error e) ↔ rate < threshold) ∧
    (∀ e, (stoprule_detection_rate rate threshold).result = .error e →
      e.metric = "detection_rate" ∧ e.action = "halt" ∧
      (stoprule_detection_rate rate threshold).emitted =
        [⟨"detection_rate", threshold, rate - threshold, "degradation", "halt"⟩]) ∧
    (threshold ≤ rate →
      (stoprule_detection_rate rate threshold).result = .ok () ∧
      (stoprule_detection_rate rate threshold).emitted = []) := by
  by_cases h : rate < threshold
  · refine ⟨⟨fun _ => h, fun _ =>
      ⟨⟨"Detection rate " ++ fmtPercent2 rate ++ " below threshold " ++ fmtPercent2 threshold,
        "detection_rate", "halt"⟩, by simp [stoprule_detection_rate, h]⟩⟩, ?_, ?_⟩
    · intro e he
      simp only [stoprule_detection_rate, h, if_true, Except.error.injEq] at he
      subst he
      exact ⟨rfl, rfl, by simp [stoprule_detection_rate, h]⟩
    · intro hge
      exact absurd h (not_lt.mpr hge)
  · refine ⟨⟨?_, fun hlt => absurd hlt h⟩, ?_, ?_⟩
    · rintro ⟨e, he⟩
      simp [stoprule_detection_rate, h] at he
    · intro e he
      simp [stoprule_detection_rate, h] at he
    · intro _
      exact ⟨by simp [stoprule_detection_rate, h], by simp [stoprule_detection_rate, h]⟩

/-- C6 witness: at the concrete rate one half against threshold seven
tenths the guard raises. -/
theorem stoprule_detection_rate_spec_witness :
    ((1 : ℚ) / 2 < 7 / 10) ∧
    (∃ e, (stoprule_detection_rate (1 / 2) (7 / 10)).result = .error e) :=
  ⟨by norm_num, (stoprule_detection_rate_spec (1 / 2) (7 / 10)).1.mpr (by norm_num)⟩

/-! ## C8: the godel scenario -/

/-- C8: for every seed (and every behavior of the abstracted non-empty
branch of the PAC scorer) the godel scenario reports four graceful
failures and four uncertainty receipts, and passes. -/
theorem scenario_godel_always_graceful (fullBranch : List Donation → List Policy → ℚ)
    (seed : ℤ) :
    (scenario_godel fullBranch seed).metrics.graceful_failures = 4 ∧
    (scenario_godel fullBranch seed).metrics.uncertainty_receipts = 4 ∧
    (scenario_godel fullBranch seed).passed = true :=
  ⟨rfl, rfl, rfl⟩

/-! ## C10: constraint validation is total -/

/-- C10: validate_constraints never divides by zero: the divisor of the
entropy-conservation check is positive by the guard that replaces a
non-positive first entropy by one, so the function returns a violation
list (possibly empty) for every state and configuration. -/
theorem validate_constraints_total (state : SimState) (config : SimConfig) :
    0 < (if 0 < state.entropy_trace.headD 0 then state.entropy_trace.headD 0 else 1) ∧
    ∃ l, validate_constraints state config = some l := by
  have hpos : 0 < (if 0 < state.entropy_trace.headD 0 then state.entropy_trace.headD 0 else 1) := by
    by_cases h : 0 < state.entropy_trace.headD 0
    · rw [if_pos h]; exact h
    · rw [if_neg h]; norm_num
  refine ⟨hpos, ?_⟩
  have hne : (if 0 < state.entropy_trace.headD 0 then state.entropy_trace.headD 0 else 1) ≠ 0 :=
    ne_of_gt hpos
  simp only [List.headD_eq_head?_getD] at hne
  unfold validate_constraints
  by_cases h2 : 2 ≤ state.entropy_trace.length
  · simp [h2, qdivChecked, hne]
  · simp [h2]

/-! ## C7: wound harvesting -/

/-- The per-receipt keep decision of harvest_wounds, used to state its
characterization. -/
def woundKeep (parseTs : String → Option ℤ) (now days : ℤ) (r : Receipt) : Bool :=
  isWoundType (r.receipt_type.getD "") &&
    (match parseTs ((r.ts.getD "").replace "Z" "") with
     | some t => decide (now - days ≤ t)
     | none => true)

/-- One loop step of harvest_wounds appends the receipt exactly when the
keep decision holds. -/
theorem harvest_step_eq (parseTs : String → Option ℤ) (now days : ℤ)
    (acc : List Receipt) (r : Receipt) :
    (if isWoundType (r.receipt_type.getD "") then
       match parseTs ((r.ts.getD "").replace "Z" "") with
       | some t => if t ≥ now - days then acc ++ [r] else acc
       | none => acc ++ [r]
     else acc) = acc ++ (if woundKeep parseTs now days r then [r] else []) := by
  by_cases hw : isWoundType (r.receipt_type.getD "")
  · cases hts : parseTs ((r.ts.getD "").replace "Z" "") with
    | none => simp [hw, woundKeep, hts]
    | some t =>
      by_cases hcut : now - days ≤ t
      · simp [hw, woundKeep, hts, hcut, ge_iff_le]
      · simp [hw, woundKeep, hts, hcut, ge_iff_le]
  · simp [hw, woundKeep]

/-- harvest_wounds is the filter by the keep decision. -/
theorem harvest_wounds_eq_filter (parseTs : String → Option ℤ) (now : ℤ)
    (receipts : List Receipt) (days : ℤ) :
    harvest_wounds parseTs now receipts days =
      receipts.filter (woundKeep parseTs now days) := by
  unfold harvest_wounds
  suffices h : ∀ (l : List Receipt) (acc : List Receipt),
      l.foldl (fun wounds r =>
        if isWoundType (r.receipt_type.getD "") then
          match parseTs ((r.ts.getD "").replace "Z" "") with
          | some t => if t ≥ now - days then wounds ++ [r] else wounds
          | none => wounds ++ [r]
        else wounds) acc = acc ++ l.filter (woundKeep parseTs now days) by
    simpa using h receipts []
  intro l
  induction l with
  | nil => intro acc; simp
  | cons r rest ih =>
    intro acc
    rw [List.foldl_cons, harvest_step_eq parseTs now days acc r, ih]
    by_cases hk : woundKeep parseTs now days r <;> simp [hk]

/-- C7: a receipt is harvested exactly when its type contains wound,
anomaly or violation and its timestamp, when it parses at all, lies in
the lookback window; a matching receipt whose timestamp fails to parse
(including a missing one, which reads as the empty string) is always
included, and the function is total, so malformed timestamps never
raise. -/
theorem harvest_wounds_membership (parseTs : String → Option ℤ) (now : ℤ)
    (receipts : List Receipt) (days : ℤ) (r : Receipt) :
    r ∈ harvest_wounds parseTs now receipts days ↔
      r ∈ receipts ∧ isWoundType (r.receipt_type.getD "") = true ∧
        ∀ t, parseTs ((r.ts.getD "").replace "Z" "") = some t → now - days ≤ t := by
  rw [harvest_wounds_eq_filter, List.mem_filter]
  constructor
  · rintro ⟨hm, hk⟩
    unfold woundKeep at hk
    rw [Bool.and_eq_true] at hk
    refine ⟨hm, hk.1, ?_⟩
    intro t ht
    rw [ht] at hk
    exact of_decide_eq_true hk.2
  · rintro ⟨hm, hw, ht⟩
    refine ⟨hm, ?_⟩
    unfold woundKeep
    rw [Bool.and_eq_true]
    refine ⟨hw, ?_⟩
    cases hts : parseTs ((r.ts.getD "").replace "Z" "") with
    | none => rfl
    | some t => exact decide_eq_true (ht t hts)

/-- C7 witness: a wound-typed receipt whose timestamp never parses is
included. -/
theorem harvest_wounds_membership_witness :
    (⟨some "wound", none, some "not-a-timestamp", none, none⟩ : Receipt) ∈
      harvest_wounds (fun _ => none) 0
        [⟨some "wound", none, some "not-a-timestamp", none, none⟩] 30 :=
  (harvest_wounds_membership (fun _ => none) 0
    [⟨some "wound", none, some "not-a-timestamp", none, none⟩] 30
    ⟨some "wound", none, some "not-a-timestamp", none, none⟩).mpr
    ⟨by simp, by decide, fun t ht => by simp at ht⟩

/-! ## C1: genesis idempotency -/

/-- Every blueprint the synthesis loop spawns has a pattern name outside
the existing set it was given. -/
theorem spawnLoop_not_in_existing (ex : List String) (ps : List WoundPattern) (b : Blueprint)
    (hb : b ∈ spawnLoop ex ps) : ex.contains b.pattern_name = false := by
  induction ps with
  | nil => simp [spawnLoop] at hb
  | cons p rest ih =>
    by_cases hc : p.exceeds_threshold && !(ex.contains ("genesis_" ++ p.wound_type))
    · rw [spawnLoop, if_pos hc] at hb
      rcases List.mem_cons.mp hb with hbe | hbr
      · have hname : b.pattern_name = "genesis_" ++ p.wound_type := by
          rw [hbe]; rfl
        rw [hname]
        have := (Bool.and_eq_true _ _).mp hc
        simpa using this.2
      · exact ih hbr
    · rw [spawnLoop, if_neg hc] at hb
      exact ih hb

/-- Every blueprint a genesis cycle spawns has a pattern name outside
the pattern names of the existing watchers it was given. -/
theorem run_genesis_cycle_spawns_uncovered (parseTs : String → Option ℤ) (now : ℤ)
    (receipts : List Receipt) (existing : List Blueprint) (b : Blueprint)
    (hb : b ∈ (run_genesis_cycle parseTs now receipts existing).new_watchers) :
    (existing.map (fun w => w.pattern_name)).contains b.pattern_name = false := by
  simp only [run_genesis_cycle] at hb
  split at hb
  · simp at hb
  · exact spawnLoop_not_in_existing _ _ b hb

/-- C1: running the genesis cycle a second time over the same receipts,
with the existing watchers set to the first run's new watchers, spawns no
blueprint whose pattern name is already among those watchers' pattern
names (for every timestamp parser and every clock value, both shared by
the two runs). -/
theorem genesis_idempotent_second_run (parseTs : String → Option ℤ) (now : ℤ)
    (receipts : List Receipt) :
    (((run_genesis_cycle parseTs now receipts
        (run_genesis_cycle parseTs now receipts []).new_watchers).new_watchers.map
          Blueprint.pattern_name).all
      (fun n => !(((run_genesis_cycle parseTs now receipts []).new_watchers.map
          Blueprint.pattern_name).contains n))) = true := by
  rw [List.all_eq_true]
  intro n hn
  rw [List.mem_map] at hn
  obtain ⟨b, hb, rfl⟩ := hn
  have hfree := run_genesis_cycle_spawns_uncovered parseTs now receipts
    (run_genesis_cycle parseTs now receipts []).new_watchers b hb
  simpa using hfree

/-! ## C9: receipt assembly merge semantics -/

theorem dictGet_append (l1 l2 : PyDict) (k : String) :
    dictGet (l1 ++ l2) k = (dictGet l1 k).orElse (fun _ => dictGet l2 k) := by
  induction l1 with
  | nil => simp [dictGet, Option.orElse]
  | cons p rest ih =>
    by_cases hp : p.1 = k
    · simp [dictGet, hp, Option.orElse]
    · simp [dictGet, hp, ih]

theorem dictGet_eq_none_iff (l : PyDict) (k : String) :
    dictGet l k = none ↔ k ∉ l.map Prod.fst := by
  induction l with
  | nil => simp [dictGet]
  | cons p rest ih =>
    by_cases hp : p.1 = k
    · simp [dictGet, hp]
    · simp [dictGet, hp, ih, Ne.symm hp]

theorem dictGet_singleton (p : String × PyVal) (k : String) :
    dictGet [p] k = if p.1 = k then some p.2 else none := by
  by_cases hp : p.1 = k <;> simp [dictGet, hp]

theorem dictGet_mapReplace_ne (d : PyDict) (k k' : String) (v : PyVal) (h : k' ≠ k) :
    dictGet (d.map (fun p => if p.1 = k then (k, v) else p)) k' = dictGet d k' := by
  induction d with
  | nil => rfl
  | cons p rest ih =>
    by_cases hp : p.1 = k
    · have hpk : p.1 ≠ k' := by rw [hp]; exact Ne.symm h
      rw [List.map_cons, if_pos hp]
      simp [dictGet, Ne.symm h, hpk, ih]
    · rw [List.map_cons, if_neg hp]
      by_cases hpk : p.1 = k'
      · simp [dictGet, hpk]
      · simp [dictGet, hpk, ih]

theorem dictGet_mapReplace_self (d : PyDict) (k : String) (v : PyVal) :
    dictGet (d.map (fun p => if p.1 = k then (k, v) else p)) k =
      (dictGet d k).map (fun _ => v) := by
  induction d with
  | nil => rfl
  | cons p rest ih =>
    by_cases hp : p.1 = k
    · rw [List.map_cons, if_pos hp]
      simp [dictGet, hp]
    · rw [List.map_cons, if_neg hp]
      simp [dictGet, hp, ih]

theorem dictGet_dictSet_ne (d : PyDict) (k k' : String) (v : PyVal) (h : k' ≠ k) :
    dictGet (dictSet d k v) k' = dictGet d k' := by
  unfold dictSet
  by_cases hs : (dictGet d k).isSome
  · rw [if_pos hs]
    exact dictGet_mapReplace_ne d k k' v h
  · rw [if_neg hs, dictGet_append, dictGet_singleton, if_neg (Ne.symm h)]
    cases dictGet d k' <;> simp [Option.orElse]

theorem dictGet_dictSet_self (d : PyDict) (k : String) (v : PyVal) :
    dictGet (dictSet d k v) k = some v := by
  unfold dictSet
  by_cases hs : (dictGet d k).isSome
  · rw [if_pos hs, dictGet_mapReplace_self]
    rcases Option.isSome_iff_exists.mp hs with ⟨w, hw⟩
    rw [hw]
    rfl
  · rw [if_neg hs, dictGet_append, dictGet_singleton, if_pos rfl]
    have hnone : dictGet d k = none := Option.not_isSome_iff_eq_none.mp hs
    rw [hnone]
    rfl

theorem dictGet_foldl_set (pairs : PyDict) (d : PyDict) (k : String) :
    dictGet (pairs.foldl (fun d p => dictSet d p.1 p.2) d) k =
      (dictGet pairs.reverse k).orElse (fun _ => dictGet d k) := by
  induction pairs generalizing d with
  | nil => simp [dictGet, Option.orElse]
  | cons p rest ih =>
    rw [List.foldl_cons, ih, List.reverse_cons, dictGet_append, dictGet_singleton]
    have hset : dictGet (dictSet d p.1 p.2) k = if p.1 = k then some p.2 else dictGet d k := by
      by_cases hp : p.1 = k
      · rw [if_pos hp, hp, dictGet_dictSet_self]
      · rw [if_neg hp, dictGet_dictSet_ne]
        exact fun hk => hp hk.symm
    rw [hset]
    cases dictGet rest.reverse k <;> by_cases hp : p.1 = k <;> simp [hp, Option.orElse]

theorem dictGet_buildDict (pairs : PyDict) (k : String) :
    dictGet (buildDict pairs) k = dictGet pairs.reverse k := by
  unfold buildDict
  rw [dictGet_foldl_set]
  cases dictGet pairs.reverse k <;> simp [dictGet, Option.orElse]

theorem dictGet_reverse_of_nodup (l : PyDict) (k : String)
    (hnd : (l.map Prod.fst).Nodup) : dictGet l.reverse k = dictGet l k := by
  induction l with
  | nil => rfl
  | cons p rest ih =>
    rw [List.reverse_cons, dictGet_append, dictGet_singleton]
    rcases List.nodup_cons.mp hnd with ⟨hp, hrest⟩
    by_cases hpk : p.1 = k
    · have hnone : dictGet rest k = none := by
        rw [dictGet_eq_none_iff]
        rw [hpk] at hp
        exact hp
      have hnone2 : dictGet rest.reverse k = none := by
        rw [dictGet_eq_none_iff, List.map_reverse, List.mem_reverse]
        rw [hpk] at hp
        exact hp
      simp [dictGet, hnone2, hpk, Option.orElse]
    · rw [ih hrest]
      simp [dictGet, hpk, Option.orElse]
      cases dictGet rest k <;> simp

/-- Looking a key up in the assembled receipt yields the payload's value
whenever the payload has that key and the key is not tenant_id. -/
theorem emit_receipt_lookup_override (rt ts : String) (data : PyDict) (k : String)
    (hnd : (data.map Prod.fst).Nodup) (hk : k ≠ "tenant_id") (v : PyVal)
    (hv : dictGet data k = some v) :
    dictGet (emit_receipt rt ts data).2 k = some v := by
  simp only [emit_receipt]
  rw [dictGet_buildDict, List.reverse_append, dictGet_append]
  have hdata1 : dictGet (if (dictGet data "tenant_id").isSome then data
      else data ++ [("tenant_id", PyVal.vstr TENANT_ID)]).reverse k = some v := by
    by_cases hs : (dictGet data "tenant_id").isSome
    · rw [if_pos hs, dictGet_reverse_of_nodup data k hnd, hv]
    · rw [if_neg hs, List.reverse_append]
      simp only [List.reverse_singleton, List.singleton_append]
      rw [show dictGet (("tenant_id", PyVal.vstr TENANT_ID) :: data.reverse) k =
            dictGet data.reverse k by simp [dictGet, Ne.symm hk]]
      rw [dictGet_reverse_of_nodup data k hnd, hv]
  rw [hdata1]
  simp [Option.orElse]

/-- C9: emit_receipt assembles the receipt with the payload splatted
last, so a payload key named receipt_type, ts or payload_hash overrides
the generated base field of the same name (in particular the stored
receipt_type can differ from the receipt_type argument), and when the
payload lacks tenant_id the function mutates the caller's payload by
appending one. -/
theorem emit_receipt_payload_overrides (rt ts : String) (data : PyDict)
    (hnd : (data.map Prod.fst).Nodup) :
    (∀ v, dictGet data "receipt_type" = some v →
      dictGet (emit_receipt rt ts data).2 "receipt_type" = some v) ∧
    (∀ v, dictGet data "ts" = some v →
      dictGet (emit_receipt rt ts data).2 "ts" = some v) ∧
    (∀ v, dictGet data "payload_hash" = some v →
      dictGet (emit_receipt rt ts data).2 "payload_hash" = some v) ∧
    (dictGet data "tenant_id" = none →
      (emit_receipt rt ts data).1 = data ++ [("tenant_id", PyVal.vstr TENANT_ID)]) := by
  refine ⟨fun v hv => emit_receipt_lookup_override rt ts data _ hnd (by decide) v hv,
          fun v hv => emit_receipt_lookup_override rt ts data _ hnd (by decide) v hv,
          fun v hv => emit_receipt_lookup_override rt ts data _ hnd (by decide) v hv,
          fun hnone => ?_⟩
  simp only [emit_receipt]
  rw [if_neg (by rw [hnone]; simp)]

/-- C9 witness: a payload carrying its own receipt_type key wins over
the receipt_type argument, and the caller's payload gains a tenant_id. -/
theorem emit_receipt_payload_overrides_witness :
    dictGet (emit_receipt "anomaly" "now"
        [("receipt_type", PyVal.vstr "spoofed")]).2 "receipt_type" =
      some (PyVal.vstr "spoofed") ∧
    (emit_receipt "anomaly" "now" [("receipt_type", PyVal.vstr "spoofed")]).1 =
      [("receipt_type", PyVal.vstr "spoofed"), ("tenant_id", PyVal.vstr TENANT_ID)] := by
  have h := emit_receipt_payload_overrides "anomaly" "now"
    [("receipt_type", PyVal.vstr "spoofed")] (by simp)
  exact ⟨h.1 (PyVal.vstr "spoofed") rfl, h.2.2.2 rfl⟩

/-! ## C2: scenario loop failure handling -/

/-- A stop-rule exception raised by a scenario is recorded as a failed
entry carrying the exception text, and this holds of every entry the
loop ever records for an exception-raising scenario. -/
theorem scenLoop_stopex_entries (outcomes : String → ScenOutcome) (names : List String)
    (st : ScenLoopState)
    (hst : ∀ p ∈ st.results, ∀ msg, outcomes p.1 = .stopEx msg →
      p.2 = ⟨false, [], [msg], some msg⟩) :
    ∀ p ∈ (scenLoop outcomes names st).results, ∀ msg, outcomes p.1 = .stopEx msg →
      p.2 = ⟨false, [], [msg], some msg⟩ := by
  induction names generalizing st with
  | nil => exact hst
  | cons name rest ih =>
    cases ho : outcomes name with
    | ok passed metrics viols =>
      have hst1 : ∀ p ∈ st.results ++ [(name, (⟨passed, metrics, viols, none⟩ : ScenEntry))],
          ∀ msg, outcomes p.1 = .stopEx msg → p.2 = ⟨false, [], [msg], some msg⟩ := by
        intro p hp msg hmsg
        rcases List.mem_append.mp hp with hold | hnew
        · exact hst p hold msg hmsg
        · rw [List.mem_singleton] at hnew
          rw [hnew] at hmsg
          rw [ho] at hmsg
          exact absurd hmsg (by simp)
      simp only [scenLoop, ho]
      cases passed with
      | true => exact ih _ (by simpa using hst1)
      | false =>
        by_cases hcf : MAX_CONSECUTIVE_FAILURES < st.consecutive_failures + 1
        · simp only [Bool.false_eq_true, if_false, hcf, if_true]
          simpa using hst1
        · simp only [Bool.false_eq_true, if_false, hcf, if_false]
          exact ih _ (by simpa using hst1)
    | stopEx msg0 =>
      simp only [scenLoop, ho]
      refine ih _ ?_
      intro p hp msg hmsg
      rcases List.mem_append.mp hp with hold | hnew
      · exact hst p hold msg hmsg
      · rw [List.mem_singleton] at hnew
        rw [hnew] at hmsg ⊢
        rw [ho] at hmsg
        have : msg0 = msg := by
          cases hmsg
          rfl
        rw [← this]

/-- When the loop does not stop early it visits every name in order. -/
theorem scenLoop_complete (outcomes : String → ScenOutcome) (names : List String)
    (st : ScenLoopState) (hst : st.stopped_early = false)
    (hfin : (scenLoop outcomes names st).stopped_early = false) :
    (scenLoop outcomes names st).results.map Prod.fst =
      st.results.map Prod.fst ++ names := by
  induction names generalizing st with
  | nil => simp [scenLoop]
  | cons name rest ih =>
    cases ho : outcomes name with
    | ok passed metrics viols =>
      cases passed with
      | true =>
        rw [scenLoop, ho] at hfin ⊢
        simp only [if_true] at hfin ⊢
        rw [ih { st with
              results := st.results ++ [(name, (⟨true, metrics, viols, none⟩ : ScenEntry))],
              consecutive_failures := 0 } hst hfin]
        simp
      | false =>
        by_cases hcf : MAX_CONSECUTIVE_FAILURES < st.consecutive_failures + 1
        · rw [scenLoop, ho] at hfin
          simp only [Bool.false_eq_true, if_false, hcf, if_true] at hfin
          exact absurd hfin (by simp)
        · rw [scenLoop, ho] at hfin ⊢
          simp only [Bool.false_eq_true, if_false, hcf] at hfin ⊢
          rw [ih { st with
                results := st.results ++ [(name, (⟨false, metrics, viols, none⟩ : ScenEntry))],
                all_passed := false,
                consecutive_failures := st.consecutive_failures + 1 } hst hfin]
          simp
    | stopEx msg0 =>
      rw [scenLoop, ho] at hfin ⊢
      rw [ih { st with
            results := st.results ++ [(name, (⟨false, [], [msg0], some msg0⟩ : ScenEntry))],
            all_passed := false,
            consecutive_failures := st.consecutive_failures + 1 } hst hfin]
      simp

/-- When the loop does stop early, the stop happened at a returned
failed result (never at an exception): the breached counter message is
recorded among the violations and the last recorded entry is an
error-free failed result. -/
theorem scenLoop_early_stop (outcomes : String → ScenOutcome) (names : List String)
    (st : ScenLoopState) (hst : st.stopped_early = false)
    (hfin : (scenLoop outcomes names st).stopped_early = true) :
    consecutiveFailuresMsg (scenLoop outcomes names st).consecutive_failures ∈
      (scenLoop outcomes names st).violations ∧
    MAX_CONSECUTIVE_FAILURES < (scenLoop outcomes names st).consecutive_failures ∧
    ∃ e, (scenLoop outcomes names st).results.getLast? = some e ∧
      e.2.error = none ∧ e.2.passed = false := by
  induction names generalizing st with
  | nil =>
    rw [scenLoop] at hfin
    rw [hst] at hfin
    exact absurd hfin (by simp)
  | cons name rest ih =>
    cases ho : outcomes name with
    | ok passed metrics viols =>
      cases passed with
      | true =>
        rw [scenLoop, ho] at hfin ⊢
        simp only [if_true] at hfin ⊢
        exact ih { st with
          results := st.results ++ [(name, (⟨true, metrics, viols, none⟩ : ScenEntry))],
          consecutive_failures := 0 } hst hfin
      | false =>
        by_cases hcf : MAX_CONSECUTIVE_FAILURES < st.consecutive_failures + 1
        · rw [scenLoop, ho]
          simp only [Bool.false_eq_true, if_false, if_pos hcf]
          refine ⟨by simp, hcf, ?_⟩
          refine ⟨(name, (⟨false, metrics, viols, none⟩ : ScenEntry)), ?_, rfl, rfl⟩
          simp
        · rw [scenLoop, ho] at hfin ⊢
          simp only [Bool.false_eq_true, if_false, hcf] at hfin ⊢
          exact ih { st with
            results := st.results ++ [(name, (⟨false, metrics, viols, none⟩ : ScenEntry))],
            all_passed := false,
            consecutive_failures := st.consecutive_failures + 1 } hst hfin
    | stopEx msg0 =>
      rw [scenLoop, ho] at hfin ⊢
      exact ih { st with
        results := st.results ++ [(name, (⟨false, [], [msg0], some msg0⟩ : ScenEntry))],
        all_passed := false,
        consecutive_failures := st.consecutive_failures + 1 } hst hfin

/-- C2 amended: the scenario loop of run_simulation converts every
StopRuleException from a named scenario into a failed entry recording
the exception text as its violation (propagating nothing, the loop being
a total function of the outcomes), and it aborts the remaining scenarios
with a recorded violation only when a returned passed-false result
pushes the consecutive-failure counter past MAX_CONSECUTIVE_FAILURES;
a counter breach reached through StopRuleExceptions alone triggers
neither the early stop nor the violation, and without an early stop all
six scenarios are visited in order. -/
theorem scenario_loop_spec (outcomes : String → ScenOutcome) :
    (∀ p ∈ (runScenarioPhase outcomes).results, ∀ msg, outcomes p.1 = .stopEx msg →
      p.2 = ⟨false, [], [msg], some msg⟩) ∧
    ((runScenarioPhase outcomes).stopped_early = false →
      (runScenarioPhase outcomes).results.map Prod.fst = SCENARIO_NAMES) ∧
    ((runScenarioPhase outcomes).stopped_early = true →
      consecutiveFailuresMsg (runScenarioPhase outcomes).consecutive_failures ∈
        (runScenarioPhase outcomes).violations ∧
      MAX_CONSECUTIVE_FAILURES < (runScenarioPhase outcomes).consecutive_failures ∧
      ∃ e, (runScenarioPhase outcomes).results.getLast? = some e ∧
        e.2.error = none ∧ e.2.passed = false) := by
  refine ⟨scenLoop_stopex_entries outcomes SCENARIO_NAMES initScenLoopState ?_, ?_, ?_⟩
  · intro p hp
    simp [initScenLoopState] at hp
  · intro hfin
    have h := scenLoop_complete outcomes SCENARIO_NAMES initScenLoopState rfl hfin
    simpa [initScenLoopState] using h
  · intro hfin
    exact scenLoop_early_stop outcomes SCENARIO_NAMES initScenLoopState rfl hfin

/-- Outcomes in which every scenario raises a stop-rule exception. -/
def allStopOutcomes : String → ScenOutcome := fun _ => .stopEx "stop"

/-- Outcomes in which the first scenario raises and the rest pass. -/
def oneStopOutcomes : String → ScenOutcome :=
  fun n => if n = "baseline" then .stopEx "boom" else .ok true [] []

/-- Outcomes in which every scenario returns a failed result. -/
def allFailOutcomes : String → ScenOutcome := fun _ => .ok false [] []

/-- C2 counterexample: with every scenario raising StopRuleException the
consecutive-failure counter climbs to six, past
MAX_CONSECUTIVE_FAILURES = 2, yet the loop still visits all six
scenarios, records no violation and never stops early — refuting the
claim that any breach of the counter, regardless of the failure kind,
aborts the remaining scenarios and records a violation. -/
theorem scenario_loop_stopex_counterexample :
    MAX_CONSECUTIVE_FAILURES < (runScenarioPhase allStopOutcomes).consecutive_failures ∧
    (runScenarioPhase allStopOutcomes).consecutive_failures = 6 ∧
    (runScenarioPhase allStopOutcomes).results.length = 6 ∧
    (runScenarioPhase allStopOutcomes).violations = [] ∧
    (runScenarioPhase allStopOutcomes).stopped_early = false := by
  refine ⟨?_, rfl, rfl, rfl, rfl⟩
  decide

/-- C2 witness: a raising first scenario still lets all six run, and an
all-failing run stops early with the violation recorded after a
passed-false result. -/
theorem scenario_loop_spec_witness :
    ((runScenarioPhase oneStopOutcomes).results.map Prod.fst = SCENARIO_NAMES) ∧
    (consecutiveFailuresMsg (runScenarioPhase allFailOutcomes).consecutive_failures ∈
        (runScenarioPhase allFailOutcomes).violations ∧
      MAX_CONSECUTIVE_FAILURES < (runScenarioPhase allFailOutcomes).consecutive_failures ∧
      ∃ e, (runScenarioPhase allFailOutcomes).results.getLast? = some e ∧
        e.2.error = none ∧ e.2.passed = false) :=
  ⟨(scenario_loop_spec oneStopOutcomes).2.1 (by decide),
   (scenario_loop_spec allFailOutcomes).2.2 (by decide)⟩

end TexasProof
